import Mathlib

/-!
Verification development for the IPTV catalog synchronization engine
(`backend/app` of the Iptv-elias repository).

The definitions below are shallow embeddings of the Python source:

* `backend/app/services/xtream_client.py` — `XtreamClient.__init__` and
  `XtreamClient._call` (HTTP/HTTPS escalation, bounded retry with backoff);
* `backend/app/services/xui_db.py` — `get_engine`, `XuiRepository.fetch_series`,
  `XuiRepository._serialize_categories`;
* `backend/app/services/importers.py` — `normalize_stream_source`;
* `backend/app/services/xui_normalizer.py` — `_normalize_stream_source_value`;
* `backend/app/tasks/importers.py` — `_ensure_job`, `_BaseImporter._should_ignore`,
  the category-union computation of `_MovieImporter.execute` /
  `_SeriesImporter.execute`, and the setup phase of `run_import`.

Python strings are modelled as Lean `String`; the string primitives the code
uses (`strip`, `lower`, `startswith`, `in`, `replace`, `rstrip`) are defined
below over the character list so that their algebra is provable.
-/

/-! ## Python string primitives -/

/-- Characters treated as whitespace by Python's `str.strip()` (ASCII part). -/
def pyIsSpace (c : Char) : Bool :=
  c = ' ' || c = '\t' || c = '\n' || c = '\r' || c = '\x0b' || c = '\x0c'

/-- `str.strip()` on the underlying character list: drop the maximal
whitespace prefix and suffix. -/
def stripChars (l : List Char) : List Char :=
  (l.dropWhile pyIsSpace).rdropWhile pyIsSpace

/-- Python `s.strip()`. -/
def pyStrip (s : String) : String :=
  ⟨stripChars s.data⟩

/-- Python `s.lower()` (ASCII case folding, which is all the code relies on). -/
def pyLower (s : String) : String :=
  ⟨s.data.map Char.toLower⟩

/-- Python `s.startswith(pre)`. -/
def pyStartsWith (s pre : String) : Bool :=
  pre.data.isPrefixOf s.data

/-- Python `sub in s` (substring containment). -/
def pyContains (s sub : String) : Bool :=
  decide (sub.data <:+: s.data)

/-- Python `s.rstrip("/")`. -/
def pyRstripSlash (s : String) : String :=
  ⟨s.data.rdropWhile (· = '/')⟩

/-- Python `s[:n]`. -/
def pyTake (n : Nat) (s : String) : String :=
  ⟨s.data.take n⟩

/-- `base.replace("http://", "https://")` on the character list: every
non-overlapping occurrence is rewritten, scanning left to right, exactly as
Python's `str.replace`. -/
def httpToHttpsChars : List Char → List Char
  | 'h' :: 't' :: 't' :: 'p' :: ':' :: '/' :: '/' :: rest =>
      'h' :: 't' :: 't' :: 'p' :: 's' :: ':' :: '/' :: '/' :: httpToHttpsChars rest
  | c :: rest => c :: httpToHttpsChars rest
  | [] => []

/-- Python `base.replace("http://", "https://")`. -/
def pyReplaceHttp (s : String) : String :=
  ⟨httpToHttpsChars s.data⟩

/-- Python `s.isdigit()` restricted to ASCII digits, as used on category ids. -/
def pyIsDigit (s : String) : Bool :=
  s ≠ "" && s.data.all Char.isDigit

/-! ## RemoteCatalogClient (`backend/app/services/xtream_client.py`)

`XtreamClient._call` is modelled as a state machine over the observable
behaviour of one call: the environment supplies, for each loop attempt, the
outcome of the primary `session.get` and (when the Cloudflare path is taken)
the outcome of the `cloudscraper` HTTPS request, plus the value drawn by
`random.uniform(0.8, 1.5)`.  The payload type is a parameter `α`
(a decoded JSON document); `json = none` models a `ValueError` from
`resp.json()`. -/

/-- An HTTP response as `_call` observes it: status code, `content-type`
header, body text, the final URL after redirects (`resp.url`), and the result
of `resp.json()` (`none` = JSON decode error). -/
structure HttpResp (α : Type) where
  status : Nat
  contentType : String
  body : String
  finalUrl : String
  json : Option α
deriving Repr, DecidableEq

/-- Outcome of one HTTP request: a response, or a raised
`requests.RequestException` (network error) with its message. -/
inductive ReqOutcome (α : Type) where
  | resp (r : HttpResp α)
  | exn (msg : String)
deriving Repr, DecidableEq

/-- Environment of one loop attempt of `_call`: the primary request outcome,
the cloudscraper HTTPS request outcome (consulted only on the Cloudflare
path), and the jitter drawn by `random.uniform(0.8, 1.5)`. -/
structure AttemptEnv (α : Type) where
  primary : ReqOutcome α
  cs : ReqOutcome α
  jitter : ℚ
deriving Repr, DecidableEq

/-- The fields set by `XtreamClient.__init__` (xtream_client.py lines 37-61). -/
structure XtreamClient where
  base_url : String
  username : String
  password : String
  timeout : Int
  throttle_ms : Int
  max_retries : Int
  backoff_seconds : Int
  max_parallel : Int
deriving Repr, DecidableEq

/-- `XtreamClient.__init__`: rejects empty credentials, strips the trailing
slash from the base URL, and clamps `max_retries`, `backoff_seconds` and
`max_parallel` to at least 1 (xtream_client.py lines 50-59). -/
def XtreamClient.init (base_url username password : String)
    (timeout throttle_ms max_retries backoff_seconds max_parallel : Int) :
    Except String XtreamClient :=
  if base_url = "" || username = "" || password = "" then
    .error "Credenciais da API Xtream incompletas"
  else
    .ok { base_url := pyRstripSlash base_url
          username := username
          password := password
          timeout := timeout
          throttle_ms := throttle_ms
          max_retries := max 1 max_retries
          backoff_seconds := max 1 backoff_seconds
          max_parallel := max 1 max_parallel }

/-- The Cloudflare/HTML detection of `_call` (xtream_client.py lines 115-123):
status 403, a `text/html` content type, or an "attention required"/
"cloudflare" marker in the first 512 body characters. -/
def blockedResp {α : Type} (r : HttpResp α) : Bool :=
  r.status == 403
    || pyContains (pyLower r.contentType) "text/html"
    || pyContains (pyLower (pyTake 512 r.body)) "attention required"
    || pyContains (pyLower (pyTake 512 r.body)) "cloudflare"

/-- Success test applied to the cloudscraper HTTPS response
(xtream_client.py lines 148-155): status 200 and a JSON content type or a
body whose stripped 512-character head starts with `\x7b` or `[`. -/
def csSuccess {α : Type} (r : HttpResp α) : Bool :=
  r.status == 200
    && (pyContains (pyLower r.contentType) "application/json"
        || pyStartsWith (pyStrip (pyTake 512 r.body)) "\x7b"
        || pyStartsWith (pyStrip (pyTake 512 r.body)) "[")

/-- What one loop iteration of `_call` decides: return a payload (with the
information needed for the `base_url` upgrade) or record the failure cause
and retry. `viaCs = true` marks the cloudscraper HTTPS path
(xtream_client.py lines 102-212). -/
inductive StepRes (α : Type) where
  | done (payload : α) (viaCs : Bool) (finalUrl : String)
  | retry (cause : String)
deriving Repr, DecidableEq

/-- One loop iteration of `_call`, given the attempt's environment.
Mirrors xtream_client.py lines 102-212: primary request, Cloudflare
detection, cloudscraper HTTPS fallback, `raise_for_status`, `resp.json()`. -/
def attemptStep {α : Type} (csAvailable : Bool) (e : AttemptEnv α) : StepRes α :=
  match e.primary with
  | .exn m => .retry m
  | .resp r =>
    if blockedResp r then
      if csAvailable then
        match e.cs with
        | .exn m => .retry m
        | .resp c =>
          if csSuccess c then
            match c.json with
            | none => .retry "cloudscraper fallback returned non-JSON"
            | some p => .done p true c.finalUrl
          else .retry "cloudscraper fallback failed"
      else .retry "cloudflare blocked and cloudscraper not available"
    else if 400 ≤ r.status ∧ r.status < 600 then .retry "HTTPError"
    else
      match r.json with
      | none => .retry "Response not JSON"
      | some p => .done p false r.finalUrl

/-- URLs requested during one loop iteration: the primary URL, plus the HTTPS
`player_api.php` URL when the Cloudflare fallback path runs. -/
def stepUrls {α : Type} (csAvailable : Bool) (e : AttemptEnv α)
    (url httpsUrl : String) : List String :=
  match e.primary with
  | .exn _ => [url]
  | .resp r => if blockedResp r && csAvailable then [url, httpsUrl] else [url]

instance {ε α : Type} [DecidableEq ε] [DecidableEq α] : DecidableEq (Except ε α) := fun x y =>
  match x, y with
  | .ok a, .ok b =>
    if h : a = b then isTrue (by rw [h]) else isFalse (by intro hc; cases hc; exact h rfl)
  | .error a, .error b =>
    if h : a = b then isTrue (by rw [h]) else isFalse (by intro hc; cases hc; exact h rfl)
  | .ok _, .error _ => isFalse (by intro hc; cases hc)
  | .error _, .ok _ => isFalse (by intro hc; cases hc)

/-- Observable outcome of a `_call` invocation: the returned payload or the
raised `XtreamError` carrying `last_exc`, the client's `base_url` after the
call, the requested URLs, the sleeps performed, and the number of loop
attempts executed. -/
structure CallTrace (α : Type) where
  result : Except (Option String) α
  base_url : String
  urls : List String
  sleeps : List ℚ
  attempts : Nat
deriving Repr, DecidableEq

/-- The retry loop of `_call` (xtream_client.py lines 88-215), unfolded from
attempt number `attempt` with `remaining` iterations left.  Before every
attempt after the first it sleeps `random.uniform(0.8, 1.5)` plus
`backoff_seconds * (attempt - 1)`; each iteration runs `attemptStep`; on
success the `base_url` upgrade of lines 169-170 / 203-204 is applied; when
the budget is exhausted the `XtreamError` carries `last_exc`. -/
def callAux {α : Type} (csAvailable : Bool) (env : Nat → AttemptEnv α)
    (cl : XtreamClient) (base url httpsBase : String)
    (lastExc : Option String) (attempt : Nat) :
    (remaining : Nat) → CallTrace α
  | 0 => ⟨.error lastExc, cl.base_url, [], [], 0⟩
  | remaining + 1 =>
    let e := env attempt
    let sleepsHere : List ℚ :=
      if 1 < attempt then
        [e.jitter
          + (if 0 < cl.backoff_seconds then (cl.backoff_seconds * (attempt - 1 : Nat) : ℚ) else 0)]
      else []
    let urlsHere := stepUrls csAvailable e url (httpsBase ++ "/player_api.php")
    match attemptStep csAvailable e with
    | .done p viaCs finalUrl =>
      let newBase :=
        if viaCs then (if httpsBase ≠ base then httpsBase else cl.base_url)
        else if httpsBase ≠ base ∧ pyStartsWith finalUrl httpsBase then httpsBase
        else cl.base_url
      ⟨.ok p, newBase, urlsHere, sleepsHere, 1⟩
    | .retry m =>
      let t := callAux csAvailable env cl base url httpsBase (some m) (attempt + 1) remaining
      ⟨t.result, t.base_url, urlsHere ++ t.urls, sleepsHere ++ t.sleeps, t.attempts + 1⟩

/-- `XtreamClient._call`: computes `base`, `url` and `https_base` from the
client state (xtream_client.py lines 68-86) and runs the bounded retry loop
for `max_retries` attempts. -/
def XtreamClient.call {α : Type} (csAvailable : Bool) (env : Nat → AttemptEnv α)
    (cl : XtreamClient) : CallTrace α :=
  let base := pyRstripSlash cl.base_url
  let url := base ++ "/player_api.php"
  let httpsBase := if pyStartsWith base "http://" then pyReplaceHttp base else base
  callAux csAvailable env cl base url httpsBase none 1 cl.max_retries.toNat

/-- The client state after a call: only `base_url` may have changed
(xtream_client.py lines 170, 204). -/
def XtreamClient.afterCall {α : Type} (cl : XtreamClient) (t : CallTrace α) : XtreamClient :=
  { cl with base_url := t.base_url }

/-- The delay slept before a retry attempt (xtream_client.py lines 91-95):
the uniform jitter plus `backoff_seconds * (attempt - 1)`. -/
def sleepDelay {α : Type} (env : Nat → AttemptEnv α) (backoff : Int) (attempt : Nat) : ℚ :=
  (env attempt).jitter + (if 0 < backoff then (backoff : ℚ) * ((attempt - 1 : Nat) : ℚ) else 0)

/-- A Cloudflare-blocked primary response (403, HTML). -/
def exBlockedResp : HttpResp Nat :=
  ⟨403, "text/html", "<html>Attention Required</html>", "http://host/player_api.php", none⟩

/-- A successful cloudscraper HTTPS response carrying payload `7`. -/
def exCsResp : HttpResp Nat :=
  ⟨200, "application/json", "[]", "https://host/player_api.php", some 7⟩

/-- Environment where every primary attempt is blocked and every cloudscraper
attempt succeeds. -/
def exEnvC1 : Nat → AttemptEnv Nat := fun _ => ⟨.resp exBlockedResp, .resp exCsResp, 1⟩

/-- A client configured with an `http://` base URL. -/
def exClientHttp : XtreamClient := ⟨"http://host", "u", "p", 30, 0, 3, 5, 1⟩

/-- A client with `max_retries = 2` and `backoff_seconds = 5`. -/
def c7Client : XtreamClient := ⟨"http://host", "u", "p", 30, 0, 2, 5, 1⟩

/-- Environment where every attempt raises a network error; the jitter drawn
by `random.uniform(0.8, 1.5)` is 1. -/
def c7FailEnv : Nat → AttemptEnv Nat := fun _ => ⟨.exn "connection error", .exn "unused", 1⟩

/-- The client produced by `XtreamClient.init` from `maxAttempts = 0`,
`backoffSeconds = 0`, `maxParallel = 0` (all clamped to 1). -/
def c10Client : XtreamClient := ⟨"http://host", "u", "p", 30, 0, 1, 1, 1⟩

/-! ## Ignore rules (`backend/app/tasks/importers.py` lines 49-79, 379-402) -/

/-- The parsed form of one ignore-rule entry (`_parse_ignore_entry`):
category-id strings, a lower-cased name → original-value map for non-numeric
category values, and `(raw, lower)` title prefixes. -/
structure IgnoreRules where
  category_ids : List String
  category_names : List (String × String)
  prefixes : List (String × String)
deriving Repr, DecidableEq

/-- First-match lookup in an association list (Python dict access). -/
def lookupAssoc (l : List (String × String)) (key : String) : Option String :=
  (l.find? (fun kv => kv.1 = key)).map (fun kv => kv.2)

/-- Python `dict.setdefault` used by `_parse_ignore_entry`: first writer of a
key wins. -/
def setdefaultAssoc (l : List (String × String)) (key v : String) :
    List (String × String) :=
  if (lookupAssoc l key).isSome then l else l ++ [(key, v)]

/-- `_parse_ignore_entry` (importers.py lines 49-79).  A `none` element models
a `None` list item (skipped) for categories and a non-string item (skipped)
for prefixes; `some s` carries the stringified value. -/
def parseIgnoreEntry (categories prefixes : List (Option String)) : IgnoreRules :=
  let catStep := fun (acc : List String × List (String × String)) (item : Option String) =>
    match item with
    | none => acc
    | some it =>
      let value := pyStrip it
      if value = "" then acc
      else
        let ids := if value ∈ acc.1 then acc.1 else acc.1 ++ [value]
        let names :=
          if pyIsDigit value then acc.2
          else setdefaultAssoc acc.2 (pyLower value) value
        (ids, names)
  let cat := categories.foldl catStep ([], [])
  let prefStep := fun (acc : List (String × String)) (item : Option String) =>
    match item with
    | none => acc
    | some p =>
      let trimmed := pyStrip p
      if trimmed = "" then acc else acc ++ [(trimmed, pyLower trimmed)]
  { category_ids := cat.1
    category_names := cat.2
    prefixes := prefixes.foldl prefStep [] }

/-- `_BaseImporter._should_ignore` (importers.py lines 379-402): evaluates
category-id membership, then case-insensitive category-name membership, then
case-insensitive title-prefix match; the first match wins and names the rule
type. -/
def shouldIgnore (rules : IgnoreRules) (title : String)
    (category_id category_name : Option String) : Option (String × String) :=
  let cat_id := pyStrip (category_id.getD "")
  let cat_name := pyStrip (category_name.getD "")
  if cat_id ≠ "" ∧ cat_id ∈ rules.category_ids then some ("categoryId", cat_id)
  else
    let nameHit : Option (String × String) :=
      if cat_name ≠ "" then
        match lookupAssoc rules.category_names (pyLower cat_name) with
        | some v => some ("categoryName", v)
        | none => none
      else none
    match nameHit with
    | some hit => some hit
    | none =>
      let title_clean := pyStrip title
      if title_clean = "" then none
      else
        match rules.prefixes.find? (fun pr => pyStartsWith (pyLower title_clean) pr.2) with
        | some pr => some ("prefix", pr.1)
        | none => none

/-! ## Category union (`_MovieImporter.execute` lines 512-572,
`_SeriesImporter.execute` lines 859-929, `XuiRepository._serialize_categories`
xui_db.py lines 256-268) -/

/-- The category list the importer computes for an existing record: a copy of
the record's list, with the mapped id appended when absent (importers.py
lines 518-520 and 870-872). -/
def mergedCategoryIds (existing : List Int) (xui : Option Int) : List Int :=
  match xui with
  | some cid => if cid ∈ existing then existing else existing ++ [cid]
  | none => existing

def serializeCategoriesAux (seen : List Int) : List Int → List Int
  | [] => []
  | c :: rest =>
    if c ∈ seen then serializeCategoriesAux seen rest
    else c :: serializeCategoriesAux (c :: seen) rest

/-- `XuiRepository._serialize_categories`: deduplicate keeping first
occurrences (the JSON dump is modelled as the resulting list). -/
def serializeCategories (l : List Int) : List Int :=
  serializeCategoriesAux [] l

/-! ## Series resolution (`XuiRepository.fetch_series`, xui_db.py lines
485-515, and `_SeriesImporter.execute`, importers.py lines 807-824) -/

/-- A row of `streams_series` as `fetch_series` sees it: `none` models SQL
NULL, `some ""` an empty tag. -/
structure SeriesRow where
  id : Nat
  title : String
  source_tag : Option String
deriving Repr, DecidableEq

/-- Python truthiness of the `source_tag` argument (`if source_tag:`). -/
def tagTruthy : Option String → Bool
  | none => false
  | some s => s ≠ ""

/-- The first SELECT of `fetch_series`:
`title = :title AND (:tag IS NULL OR source_tag = :tag)` under SQL
three-valued equality (a NULL column never equals a non-NULL parameter). -/
def rowMatchesPrimary (t : String) (tag : Option String) (r : SeriesRow) : Bool :=
  r.title = t && (match tag with
    | none => true
    | some s => r.source_tag == some s)

/-- The fallback SELECT of `fetch_series`:
`title = :title AND (source_tag IS NULL OR source_tag = '')`. -/
def rowMatchesFallback (t : String) (r : SeriesRow) : Bool :=
  r.title = t && (r.source_tag == none || r.source_tag == some "")

/-- `XuiRepository.fetch_series`: first row matching `(title, tag)`;
otherwise, when the tag is truthy, the first row with the title and a
NULL/empty tag is claimed — its `source_tag` is UPDATEd to the supplied tag
and the row is returned with that tag. -/
def fetch_series (table : List SeriesRow) (title : String) (tag : Option String) :
    Option SeriesRow × List SeriesRow :=
  match table.find? (rowMatchesPrimary title tag) with
  | some r => (some r, table)
  | none =>
    if tagTruthy tag then
      match table.find? (rowMatchesFallback title) with
      | some r =>
        (some { r with source_tag := tag },
         table.map (fun x => if x.id = r.id then { x with source_tag := tag } else x))
      | none => (none, table)
    else (none, table)

/-- `_SeriesImporter.execute` lines 807-824: resolve the series through
`fetch_series`; only when it returns nothing is `create_series` called (a new
row with a fresh id and the run's tag). Returns (series id, created flag, new
table). -/
def resolveSeriesId (table : List SeriesRow) (title : String) (tag : Option String)
    (freshId : Nat) : Nat × Bool × List SeriesRow :=
  match fetch_series table title tag with
  | (some e, t2) => (e.id, false, t2)
  | (none, t2) => (freshId, true, t2 ++ [⟨freshId, title, tag⟩])

/-! ## SourceNormalizer (`backend/app/services/xui_normalizer.py` lines
62-115 and `backend/app/services/importers.py` lines 74-87)

The stored `stream_source` column value is modelled by what `json.loads`
does to it; the per-item loop only distinguishes string items from
non-string items, so a JSON array is a list of `PyItem`. -/

/-- One element of a parsed JSON array: a string, or anything else. -/
inductive PyItem where
  | str (s : String)
  | nonstr
deriving Repr, DecidableEq

/-- A stored `stream_source` value as `_normalize_stream_source_value`
distinguishes them: SQL NULL, a string that fails `json.loads` (including
`""`), or a parsed JSON array / string / other document. -/
inductive StoredVal where
  | null
  | raw (s : String)
  | jsonArr (xs : List PyItem)
  | jsonStr (s : String)
  | jsonOther
deriving Repr, DecidableEq

/-- `normalize_stream_source` (services/importers.py lines 74-87), with the
`seen` set threaded explicitly; `none` models a `None` element. -/
def nssAux (seen : List String) : List (Option String) → List String
  | [] => []
  | u :: rest =>
    match u with
    | none => nssAux seen rest
    | some url =>
      if url = "" then nssAux seen rest
      else
        let cleaned := pyStrip url
        if cleaned = "" ∨ cleaned ∈ seen then nssAux seen rest
        else cleaned :: nssAux (cleaned :: seen) rest

/-- `normalize_stream_source(urls)`: trim, drop falsy entries, deduplicate
preserving first-seen order. -/
def normalize_stream_source (urls : List (Option String)) : List String :=
  nssAux [] urls

/-- State of the item loop of `_normalize_stream_source_value`
(xui_normalizer.py lines 84-105). -/
structure ScanState where
  seen : List String
  candidates : List String
  nonString : Bool
  trimmedDetected : Bool
  emptyDetected : Bool
  dupDetected : Bool
deriving Repr, DecidableEq

def initScan : ScanState := ⟨[], [], false, false, false, false⟩

/-- One iteration of the item loop of `_normalize_stream_source_value`:
non-strings are dropped and flagged; strings are stripped; empty and
duplicate results are dropped and flagged; survivors are appended in
order. -/
def scanStep (st : ScanState) : PyItem → ScanState
  | .nonstr => { st with nonString := true }
  | .str s =>
    let t := pyStrip s
    let st1 := if t ≠ s then { st with trimmedDetected := true } else st
    if t = "" then { st1 with emptyDetected := true }
    else if t ∈ st1.seen then { st1 with dupDetected := true }
    else { st1 with seen := t :: st1.seen, candidates := st1.candidates ++ [t] }

/-- The item loop of `_normalize_stream_source_value`. -/
def scanItems (items : List PyItem) (st : ScanState) : ScanState :=
  items.foldl scanStep st

/-- Tail of `_normalize_stream_source_value` (lines 107-115): run
`normalize_stream_source` over the candidates, fold the flags and the length
comparison into `changed`, return `(normalized, first_url, changed)`. -/
def finishScan (st : ScanState) (changed0 : Bool) : List String × Option String × Bool :=
  let normalized := normalize_stream_source (st.candidates.map some)
  let changed := changed0 || st.nonString || st.trimmedDetected || st.emptyDetected
    || st.dupDetected || decide (normalized.length ≠ st.candidates.length)
  (normalized, normalized.head?, changed)

/-- The item list the loop of `_normalize_stream_source_value` iterates over
(its `values` variable). -/
def storedItems : StoredVal → List PyItem
  | .null => []
  | .raw s => if s = "" then [] else [.str s]
  | .jsonArr xs => xs
  | .jsonStr s => [.str s]
  | .jsonOther => []

/-- `_normalize_stream_source_value` (xui_normalizer.py lines 62-115). -/
def normalizeStreamSourceValue : StoredVal → List String × Option String × Bool
  | .null => ([], none, false)
  | .raw s =>
    if s = "" then ([], none, false)
    else finishScan (scanItems [.str s] initScan) true
  | .jsonArr xs => finishScan (scanItems xs initScan) false
  | .jsonStr s => finishScan (scanItems [.str s] initScan) true
  | .jsonOther => finishScan (scanItems [] initScan) true

/-- The trimmed string items, in input order (used to state that the output
preserves first-seen order). -/
def itemStrip : PyItem → Option String
  | .str s => some (pyStrip s)
  | .nonstr => none

/-- Invariant of the scan lists: candidates are stripped, non-empty, free of
duplicates, and the `seen` set holds exactly the candidates. -/
def GoodLists (seen cands : List String) : Prop :=
  (∀ x ∈ cands, pyStrip x = x ∧ x ≠ "") ∧ cands.Nodup ∧
  (∀ x, x ∈ seen ↔ x ∈ cands)

/-- Invariant of the scan state. -/
def GoodScan (st : ScanState) : Prop :=
  GoodLists st.seen st.candidates

/-- A stored value with trimming, a duplicate, a non-string and an empty
entry. -/
def c9Example : StoredVal :=
  .jsonArr [.str " a ", .str "b", .nonstr, .str "a", .str ""]

/-! ## ImportOrchestrator job state machine (`backend/app/tasks/importers.py`
lines 82-104 and 1025-1143, `backend/app/models/job.py`) -/

/-- A `jobs` row as the orchestrator mutates it. -/
structure Job where
  id : Nat
  tenant_id : String
  user_id : Int
  jtype : String
  status : String
  progress : ℚ
  eta_sec : Option Int
  started_at : Option Nat
  finished_at : Option Nat
  error : Option String
  inserted : Nat
  updated : Nat
  ignored : Nat
  errors : Nat
  duration_sec : Option Int
  source_tag : Option String
  source_tag_filmes : Option String
deriving Repr, DecidableEq

/-- `_ensure_job` (importers.py lines 82-104): fetch or create the job, then
unconditionally claim it — status becomes `running`, counters, progress,
error, timestamps and tags are reset.  There is no guard against a job that
is already `finished` or `failed`. -/
def ensure_job (tipo tenant_id : String) (user_id : Int) (existing : Option Job)
    (newId : Nat) (now : Nat) : Job :=
  let base := match existing with
    | some j => j
    | none =>
      { id := newId, tenant_id := tenant_id, user_id := user_id, jtype := tipo
        status := "queued", progress := 0, eta_sec := none, started_at := none
        finished_at := none, error := none, inserted := 0, updated := 0
        ignored := 0, errors := 0, duration_sec := none, source_tag := none
        source_tag_filmes := none }
  { base with
    status := "running", progress := 0, started_at := some now
    finished_at := none, error := none, inserted := 0, updated := 0, ignored := 0
    errors := 0, duration_sec := none, eta_sec := none, source_tag := none
    source_tag_filmes := none }

/-- The worker configuration consumed by `run_import`
(`get_worker_config`). -/
structure WorkerConfig where
  xui_db_uri : String
  xtream_base_url : String
  xtream_username : String
  xtream_password : String
deriving Repr, DecidableEq

/-- The failure handler of `run_import` (importers.py lines 1106-1142):
status `failed`, `finished_at`/`duration_sec` set, the exception message
stored verbatim, `eta_sec` cleared — the counters are left as `_ensure_job`
reset them. -/
def failJob (job : Job) (now fin : Nat) (msg : String) : Job :=
  { job with
    status := "failed", finished_at := some fin
    duration_sec := some ((fin : Int) - (now : Int)), error := some msg
    eta_sec := none }

/-- The setup phase of `run_import` (importers.py lines 1026-1057).  After
the configuration checks succeed, line 1057 calls
`get_engine(tenant_id, XuiCredentials(...))` — but `get_engine`
(xui_db.py line 64) requires three positional arguments
`(tenant_id, user_id, credentials)`, so the call raises
`TypeError` before any catalog item can be processed and the generic
exception handler marks the job failed.  (The sibling call in
tasks/normalization.py line 25 passes all three arguments.)
Returns the final job and the trace of job snapshots committed. -/
def run_import (tipo tenant_id : String) (user_id : Int) (existing : Option Job)
    (cfg : WorkerConfig) (newId : Nat) (now fin : Nat) : Option Job × List Job :=
  if tipo ∉ (["filmes", "series"] : List String) then (none, [])
  else
    let job := ensure_job tipo tenant_id user_id existing newId now
    let final :=
      if cfg.xui_db_uri = "" then failJob job now fin "xui_db_uri não configurado"
      else if cfg.xtream_base_url = "" then
        failJob job now fin "xtream_base_url não configurado"
      else if cfg.xtream_username = "" ∨ cfg.xtream_password = "" then
        failJob job now fin "Credenciais da API Xtream não configuradas"
      else
        failJob job now fin
          "TypeError: get_engine() missing 1 required positional argument: credentials"
    (some final, [job, final])

/-- A job that has already reached the terminal state `finished`. -/
def c2FinishedJob : Job :=
  { id := 7, tenant_id := "t1", user_id := 1, jtype := "filmes"
    status := "finished", progress := 1, eta_sec := none, started_at := some 10
    finished_at := some 20, error := none, inserted := 3, updated := 1
    ignored := 0, errors := 0, duration_sec := some 10, source_tag := none
    source_tag_filmes := none }

/-- A worker configuration with every credential present. -/
def c8FullConfig : WorkerConfig :=
  ⟨"mysql+pymysql://u:p@h/xui", "http://host", "user", "pass"⟩

/-- A worker configuration whose Xtream credentials are missing. -/
def c8NoCredsConfig : WorkerConfig :=
  ⟨"mysql+pymysql://u:p@h/xui", "http://host", "", ""⟩

/-! ## ConnectionRegistry (`backend/app/services/xui_db.py` lines 23-25 and
59-174) -/

/-- A pooled SQLAlchemy engine as the registry tracks it. -/
structure EngineRec where
  eid : Nat
  uri : String
  disposed : Bool
deriving Repr, DecidableEq

/-- The module-level registries `_engine_registry` / `_engine_uri_registry`
plus a fresh-id counter for newly created engines. -/
structure EngineRegistry where
  engines : List (String × EngineRec)
  uris : List (String × String)
  nextId : Nat
deriving Repr, DecidableEq

/-- Python dict read. -/
def assocGet {α : Type} (l : List (String × α)) (k : String) : Option α :=
  (l.find? (fun kv => kv.1 = k)).map Prod.snd

/-- Python dict write (replace or insert). -/
def assocSet {α : Type} (l : List (String × α)) (k : String) (v : α) :
    List (String × α) :=
  if (assocGet l k).isSome then l.map (fun kv => if kv.1 = k then (k, v) else kv)
  else l ++ [(k, v)]

/-- `_registry_key` (xui_db.py lines 59-61). -/
def registryKey (tenant_id : String) (user_id : Option Int) : String :=
  tenant_id ++ ":" ++ (match user_id with | some u => toString u | none => "default")

/-- The characters before the first `://` occurrence. -/
def driverOfChars : List Char → List Char
  | ':' :: '/' :: '/' :: _ => []
  | c :: rest => c :: driverOfChars rest
  | [] => []

/-- `make_url(uri).drivername`: the scheme before `://`. -/
def driverOf (uri : String) : String :=
  ⟨driverOfChars uri.data⟩

/-- Result of `get_engine`: the value returned (which, through the fall
through described below, can be Python `None` or a disposed engine), or a
raised error. -/
inductive GetEngineOutcome where
  | ok (e : Option EngineRec)
  | err (msg : String)
deriving Repr, DecidableEq

/-- The creation block of `get_engine` (xui_db.py lines 103-173).  The whole
block — `create_engine`, the `SELECT 1` validation and the registry stores —
sits inside `if driver != "mysql+pymysql":`, so for the expected
`mysql+pymysql` driver nothing is created and the stale local `engine`
variable (`None`, or the just-disposed cached engine) is returned. -/
def getEngineCreate (reg : EngineRegistry) (key uri : String) (probeOk : Bool)
    (engineVar : Option EngineRec) : GetEngineOutcome × EngineRegistry :=
  if driverOf uri ≠ "mysql+pymysql" then
    if probeOk then
      (.ok (some ⟨reg.nextId, uri, false⟩),
       { engines := assocSet reg.engines key ⟨reg.nextId, uri, false⟩
         uris := assocSet reg.uris key uri
         nextId := reg.nextId + 1 })
    else (.err "Falha ao validar a conexão", reg)
  else (.ok engineVar, reg)

/-- `get_engine` (xui_db.py lines 64-174): empty URI raises; a cached engine
with the same URI is reused; a cached engine with a different URI is disposed
(the registry entry stays, now pointing at a disposed engine); then the
creation block `getEngineCreate` runs. -/
def get_engine (reg : EngineRegistry) (tenant_id : String) (user_id : Option Int)
    (uri : String) (probeOk : Bool) : GetEngineOutcome × EngineRegistry :=
  if uri = "" then (.err "URI do banco XUI não configurada", reg)
  else
    let key := registryKey tenant_id user_id
    match assocGet reg.engines key with
    | some e =>
      if assocGet reg.uris key = some uri then (.ok (some e), reg)
      else
        getEngineCreate
          { reg with engines := assocSet reg.engines key { e with disposed := true } }
          key uri probeOk (some { e with disposed := true })
    | none => getEngineCreate reg key uri probeOk none

/-- The empty process-wide registry. -/
def emptyRegistry : EngineRegistry := ⟨[], [], 1⟩

/-- A registry holding a pooled engine for `tenant1` under a different URI. -/
def staleRegistry : EngineRegistry :=
  ⟨[("tenant1:default", ⟨1, "mysql+pymysql://old:pw@old-host/db", false⟩)],
   [("tenant1:default", "mysql+pymysql://old:pw@old-host/db")], 2⟩

/-! ## Theorems -/

theorem stripChars_idem (l : List Char) : stripChars (stripChars l) = stripChars l := by
  unfold stripChars
  have hpre : (l.dropWhile pyIsSpace).rdropWhile pyIsSpace <+: l.dropWhile pyIsSpace :=
    List.rdropWhile_prefix _ _
  have hdrop :
      ((l.dropWhile pyIsSpace).rdropWhile pyIsSpace).dropWhile pyIsSpace
        = (l.dropWhile pyIsSpace).rdropWhile pyIsSpace := by
    rw [List.dropWhile_eq_self_iff]
    intro hl
    have hlen : 0 < (l.dropWhile pyIsSpace).length :=
      lt_of_lt_of_le hl hpre.length_le
    have hget := hpre.getElem (n := 0) hl
    rw [List.get_eq_getElem, hget]
    have := List.dropWhile_get_zero_not (p := pyIsSpace) l hlen
    rwa [List.get_eq_getElem] at this
  rw [hdrop, List.rdropWhile_idempotent]

theorem pyStrip_idem (s : String) : pyStrip (pyStrip s) = pyStrip s := by
  unfold pyStrip
  exact congrArg String.mk (stripChars_idem s.data)

/-- The characters of a stripped string. -/
theorem pyStrip_data (s : String) : (pyStrip s).data = stripChars s.data := rfl

theorem httpToHttpsChars_http_prefix (rest : List Char) :
    httpToHttpsChars ('h' :: 't' :: 't' :: 'p' :: ':' :: '/' :: '/' :: rest)
      = 'h' :: 't' :: 't' :: 'p' :: 's' :: ':' :: '/' :: '/' :: httpToHttpsChars rest := by
  rfl

/-- If a base URL starts with `http://`, its `https://` variant starts with
`https://`. -/
theorem pyReplaceHttp_startsWith (s : String) (h : pyStartsWith s "http://" = true) :
    pyStartsWith (pyReplaceHttp s) "https://" = true := by
  unfold pyStartsWith at h ⊢
  rw [List.isPrefixOf_iff_prefix] at h ⊢
  obtain ⟨rest, hrest⟩ := h
  unfold pyReplaceHttp
  show ("https://").data <+: httpToHttpsChars s.data
  have : s.data = 'h' :: 't' :: 't' :: 'p' :: ':' :: '/' :: '/' :: rest := by
    simpa using hrest.symm
  rw [this, httpToHttpsChars_http_prefix]
  exact ⟨httpToHttpsChars rest, rfl⟩

/-- If a base URL starts with `http://`, its `https://` variant is a different
string (the code's `https_base != base` test succeeds). -/
theorem pyReplaceHttp_ne (s : String) (h : pyStartsWith s "http://" = true) :
    pyReplaceHttp s ≠ s := by
  unfold pyStartsWith at h
  rw [List.isPrefixOf_iff_prefix] at h
  obtain ⟨rest, hrest⟩ := h
  have hs : s.data = 'h' :: 't' :: 't' :: 'p' :: ':' :: '/' :: '/' :: rest := by
    simpa using hrest.symm
  intro hcontra
  have : (pyReplaceHttp s).data = s.data := congrArg String.data hcontra
  rw [hs] at this
  unfold pyReplaceHttp at this
  simp only [hs, httpToHttpsChars_http_prefix, List.cons.injEq] at this
  exact absurd this.2.2.2.2.1 (by decide)

theorem callAux_attempts_le {α : Type} (cs : Bool) (env : Nat → AttemptEnv α)
    (cl : XtreamClient) (base url httpsBase : String) :
    ∀ (remaining a : Nat) (lastExc : Option String),
      (callAux cs env cl base url httpsBase lastExc a remaining).attempts ≤ remaining := by
  intro remaining
  induction remaining with
  | zero => intro a lastExc; simp [callAux]
  | succ r ih =>
    intro a lastExc
    rcases hstep : attemptStep cs (env a) with _ | m
    · simp [callAux, hstep]
    · simp only [callAux, hstep]
      exact Nat.succ_le_succ (ih (a + 1) (some m))

theorem callAux_attempts_pos {α : Type} (cs : Bool) (env : Nat → AttemptEnv α)
    (cl : XtreamClient) (base url httpsBase : String) :
    ∀ (remaining a : Nat) (lastExc : Option String), 0 < remaining →
      0 < (callAux cs env cl base url httpsBase lastExc a remaining).attempts := by
  intro remaining a lastExc hr
  match remaining, hr with
  | r + 1, _ =>
    rcases hstep : attemptStep cs (env a) with _ | m
    · simp [callAux, hstep]
    · simp [callAux, hstep]

/-- Master characterisation of a successful call: if the first `k` attempts
retry and attempt `a + k` returns a payload, the loop stops there. -/
theorem callAux_done_spec {α : Type} (cs : Bool) (env : Nat → AttemptEnv α)
    (cl : XtreamClient) (base url httpsBase : String) :
    ∀ (k remaining a : Nat) (lastExc : Option String), k < remaining →
      (∀ j, j < k → ∃ m, attemptStep cs (env (a + j)) = .retry m) →
      ∀ (p : α) (viaCs : Bool) (fu : String),
        attemptStep cs (env (a + k)) = .done p viaCs fu →
        let t := callAux cs env cl base url httpsBase lastExc a remaining
        t.result = .ok p ∧ t.attempts = k + 1 ∧
        t.base_url =
          (if viaCs then (if httpsBase ≠ base then httpsBase else cl.base_url)
           else if httpsBase ≠ base ∧ pyStartsWith fu httpsBase then httpsBase
           else cl.base_url) ∧
        stepUrls cs (env (a + k)) url (httpsBase ++ "/player_api.php") ⊆ t.urls := by
  intro k
  induction k with
  | zero =>
    intro remaining a lastExc hlt _ p viaCs fu hdone
    match remaining, hlt with
    | r + 1, _ =>
      rw [Nat.add_zero] at hdone
      simp [callAux, hdone, List.Subset.refl]
  | succ k ih =>
    intro remaining a lastExc hlt hprev p viaCs fu hdone
    match remaining, hlt with
    | r + 1, hlt =>
      obtain ⟨m, hm⟩ := hprev 0 (Nat.succ_pos k)
      rw [Nat.add_zero] at hm
      have hprevs : ∀ j, j < k → ∃ m, attemptStep cs (env (a + 1 + j)) = .retry m := by
        intro j hj
        have := hprev (j + 1) (Nat.succ_lt_succ hj)
        rwa [show a + (j + 1) = a + 1 + j by omega] at this
      have hdones : attemptStep cs (env (a + 1 + k)) = .done p viaCs fu := by
        rwa [show a + (k + 1) = a + 1 + k by omega] at hdone
      have hres := ih r (a + 1) (some m) (Nat.lt_of_succ_lt_succ hlt) hprevs p viaCs fu hdones
      simp only [callAux, hm]
      refine ⟨hres.1, by rw [hres.2.1], hres.2.2.1, ?_⟩
      rw [show a + (k + 1) = a + 1 + k by omega]
      exact hres.2.2.2.trans (List.subset_append_right _ _)

/-- Master characterisation of an exhausted call: if every attempt in the
budget retries, the call fails with the cause of the last attempt. -/
theorem callAux_exhaust_spec {α : Type} (cs : Bool) (env : Nat → AttemptEnv α)
    (cl : XtreamClient) (base url httpsBase : String) :
    ∀ (remaining a : Nat) (lastExc : Option String), 0 < remaining →
      (∀ j, j < remaining → ∃ m, attemptStep cs (env (a + j)) = .retry m) →
      ∀ m, attemptStep cs (env (a + (remaining - 1))) = .retry m →
        let t := callAux cs env cl base url httpsBase lastExc a remaining
        t.result = .error (some m) ∧ t.attempts = remaining ∧ t.base_url = cl.base_url := by
  intro remaining
  induction remaining with
  | zero => intro a lastExc h; omega
  | succ r ih =>
    intro a lastExc _ hall m hlast
    rcases Nat.eq_zero_or_pos r with hr | hr
    · subst hr
      rw [show a + (0 + 1 - 1) = a by omega] at hlast
      simp [callAux, hlast]
    · obtain ⟨m0, hm0⟩ := hall 0 (Nat.succ_pos r)
      rw [Nat.add_zero] at hm0
      have halls : ∀ j, j < r → ∃ m, attemptStep cs (env (a + 1 + j)) = .retry m := by
        intro j hj
        have := hall (j + 1) (Nat.succ_lt_succ hj)
        rwa [show a + (j + 1) = a + 1 + j by omega] at this
      have hlasts : attemptStep cs (env (a + 1 + (r - 1))) = .retry m := by
        rwa [show a + (r + 1 - 1) = a + 1 + (r - 1) by omega] at hlast
      have hres := ih (a + 1) (some m0) hr halls m hlasts
      simp only [callAux, hm0]
      exact ⟨hres.1, by rw [hres.2.1], hres.2.2⟩

theorem stepUrls_head {α : Type} (cs : Bool) (e : AttemptEnv α) (url httpsUrl : String) :
    (stepUrls cs e url httpsUrl).head? = some url := by
  rcases e with ⟨primary, c, j⟩
  rcases primary with r | m
  · simp only [stepUrls]
    split <;> rfl
  · rfl

/-- Every executed attempt at number `a ≥ 2` is preceded by a sleep of
`jitter + backoff * (attempt - 1)`. -/
theorem callAux_sleeps_from_two {α : Type} (cs : Bool) (env : Nat → AttemptEnv α)
    (cl : XtreamClient) (base url httpsBase : String) :
    ∀ (remaining a : Nat) (lastExc : Option String), 2 ≤ a →
      let t := callAux cs env cl base url httpsBase lastExc a remaining
      t.sleeps = (List.range t.attempts).map
        (fun j => sleepDelay env cl.backoff_seconds (a + j)) := by
  intro remaining
  induction remaining with
  | zero => intro a lastExc _; simp [callAux]
  | succ r ih =>
    intro a lastExc ha
    have h1a : 1 < a := ha
    rcases hstep : attemptStep cs (env a) with _ | m
    · simp [callAux, hstep, h1a, sleepDelay, List.range_succ]
    · have ihr := ih (a + 1) (some m) (by omega)
      simp only [callAux, hstep, if_pos h1a]
      simp only at ihr
      rw [ihr, List.range_succ_eq_map, List.map_cons, List.map_map]
      simp only [Nat.add_zero, List.singleton_append, sleepDelay]
      congr 1
      refine List.map_congr_left ?_
      intro j _
      simp only [Function.comp_apply]
      rw [show a + 1 + j = a + Nat.succ j by omega]

/-- Sleeps of a full `_call`: the i-th sleep (before overall attempt `i + 2`,
that is before retry number `i + 1`) is `jitter + backoff * (i + 1)`. -/
theorem call_sleeps_spec {α : Type} (cs : Bool) (env : Nat → AttemptEnv α)
    (cl : XtreamClient) :
    (XtreamClient.call cs env cl).sleeps =
      (List.range ((XtreamClient.call cs env cl).attempts - 1)).map
        (fun i => sleepDelay env cl.backoff_seconds (i + 2)) := by
  unfold XtreamClient.call
  rcases hrem : cl.max_retries.toNat with _ | r
  · simp [callAux]
  · rcases hstep : attemptStep cs (env 1) with _ | m
    · simp [callAux, hstep]
    · have h2 := callAux_sleeps_from_two cs env cl (pyRstripSlash cl.base_url)
        (pyRstripSlash cl.base_url ++ "/player_api.php")
        (if pyStartsWith (pyRstripSlash cl.base_url) "http://" = true
         then pyReplaceHttp (pyRstripSlash cl.base_url) else pyRstripSlash cl.base_url)
        r 2 (some m) (by omega)
      simp only [callAux, hstep]
      simp only at h2
      simp only [show ¬ (1 < 1) by omega, if_false, List.nil_append, Nat.add_sub_cancel]
      rw [h2]
      refine List.map_congr_left ?_
      intro j _
      rw [Nat.add_comm 2 j]

theorem stepUrls_cons {α : Type} (cs : Bool) (e : AttemptEnv α) (url httpsUrl : String) :
    ∃ tl, stepUrls cs e url httpsUrl = url :: tl := by
  rcases e with ⟨primary, c, j⟩
  rcases primary with r | m
  · simp only [stepUrls]
    split
    · exact ⟨[httpsUrl], rfl⟩
    · exact ⟨[], rfl⟩
  · exact ⟨[], rfl⟩

/-- The first URL requested by any `_call` is built from the client's current
`base_url`. -/
theorem call_urls_head {α : Type} (cs : Bool) (env : Nat → AttemptEnv α)
    (cl : XtreamClient) (h : 0 < cl.max_retries.toNat) :
    (XtreamClient.call cs env cl).urls.head? =
      some (pyRstripSlash cl.base_url ++ "/player_api.php") := by
  unfold XtreamClient.call
  rcases hrem : cl.max_retries.toNat with _ | r
  · omega
  · obtain ⟨tl, htl⟩ := stepUrls_cons cs (env 1) (pyRstripSlash cl.base_url ++ "/player_api.php")
      ((if pyStartsWith (pyRstripSlash cl.base_url) "http://" = true
        then pyReplaceHttp (pyRstripSlash cl.base_url)
        else pyRstripSlash cl.base_url) ++ "/player_api.php")
    rcases hstep : attemptStep cs (env 1) with _ | m
    · simp [callAux, hstep, htl]
    · simp [callAux, hstep, htl]

theorem XtreamClient.init_ok {b u pw : String} {tmo th mr bo mp : Int} {cl : XtreamClient}
    (h : XtreamClient.init b u pw tmo th mr bo mp = .ok cl) :
    cl = { base_url := pyRstripSlash b, username := u, password := pw, timeout := tmo,
           throttle_ms := th, max_retries := max 1 mr, backoff_seconds := max 1 bo,
           max_parallel := max 1 mp } := by
  unfold XtreamClient.init at h
  split at h
  · exact absurd h (by simp)
  · injection h with h
    exact h.symm

/-- C1: for every `XtreamClient` whose base URL starts with `http://`, if an
attempt of `_call` receives a 403/HTML-detected response and the cloudscraper
HTTPS attempt answers successful JSON, the call returns that payload, the
HTTPS variant of the URL was requested, the client's `base_url` is set to the
`https://` variant, and every subsequent call on the same client instance
requests the HTTPS base URL directly. -/
theorem spec_C1_https_failover {α : Type} (env env2 : Nat → AttemptEnv α)
    (cl : XtreamClient) (p : α) (k : Nat) (r c : HttpResp α)
    (hbase : pyStartsWith (pyRstripSlash cl.base_url) "http://" = true)
    (hk1 : 1 ≤ k) (hk2 : k ≤ cl.max_retries.toNat)
    (hprev : ∀ j, 1 ≤ j → j < k → ∃ m, attemptStep true (env j) = .retry m)
    (hprim : (env k).primary = .resp r) (hblocked : blockedResp r = true)
    (hcs : (env k).cs = .resp c) (hcsok : csSuccess c = true) (hjson : c.json = some p) :
    (XtreamClient.call true env cl).result = .ok p ∧
    (XtreamClient.call true env cl).base_url = pyReplaceHttp (pyRstripSlash cl.base_url) ∧
    pyStartsWith (XtreamClient.call true env cl).base_url "https://" = true ∧
    (pyReplaceHttp (pyRstripSlash cl.base_url) ++ "/player_api.php")
      ∈ (XtreamClient.call true env cl).urls ∧
    (XtreamClient.call true env2
        (XtreamClient.afterCall cl (XtreamClient.call true env cl))).urls.head? =
      some (pyRstripSlash ((XtreamClient.call true env cl).base_url) ++ "/player_api.php") := by
  have hdone : attemptStep true (env k) = .done p true c.finalUrl := by
    unfold attemptStep
    rw [hprim, hcs]
    simp [hblocked, hcsok, hjson]
  have hne : pyReplaceHttp (pyRstripSlash cl.base_url) ≠ pyRstripSlash cl.base_url :=
    pyReplaceHttp_ne _ hbase
  have hmain := callAux_done_spec true env cl (pyRstripSlash cl.base_url)
    (pyRstripSlash cl.base_url ++ "/player_api.php")
    (pyReplaceHttp (pyRstripSlash cl.base_url)) (k - 1) cl.max_retries.toNat 1 none
    (by omega)
    (by
      intro j hj
      exact hprev (1 + j) (by omega) (by omega))
    p true c.finalUrl
    (by rwa [show 1 + (k - 1) = k by omega])
  simp only at hmain
  have hcalleq : XtreamClient.call true env cl =
      callAux true env cl (pyRstripSlash cl.base_url)
        (pyRstripSlash cl.base_url ++ "/player_api.php")
        (pyReplaceHttp (pyRstripSlash cl.base_url)) none 1 cl.max_retries.toNat := by
    simp only [XtreamClient.call, hbase, if_true]
  have hbu := hmain.2.2.1
  simp only [ite_true] at hbu
  rw [if_pos hne] at hbu
  have hurl : (pyReplaceHttp (pyRstripSlash cl.base_url) ++ "/player_api.php")
      ∈ (XtreamClient.call true env cl).urls := by
    rw [hcalleq]
    refine hmain.2.2.2 ?_
    rw [show 1 + (k - 1) = k by omega]
    unfold stepUrls
    rw [hprim]
    simp [hblocked]
  refine ⟨by rw [hcalleq]; exact hmain.1, by rw [hcalleq]; exact hbu, ?_, hurl, ?_⟩
  · rw [hcalleq, hbu]
    exact pyReplaceHttp_startsWith _ hbase
  · rw [call_urls_head true env2 _ (by simp only [XtreamClient.afterCall]; omega)]
    rfl

/-- C7 (amended): at most `maxAttempts` request attempts are made; the sleep
before retry attempt number `n` is `backoffSeconds * n` **plus the uniform
jitter drawn from [0.8, 1.5]** (xtream_client.py lines 91-95); a successfully
decoded JSON payload is returned as-is with no further attempt; and when
every attempt fails the raised `XtreamError` carries the underlying cause of
the last failure. -/
theorem spec_C7_retry_policy {α : Type} (cs : Bool) (env : Nat → AttemptEnv α)
    (b u pw : String) (tmo th mr bo mp : Int) (cl : XtreamClient)
    (hinit : XtreamClient.init b u pw tmo th mr bo mp = .ok cl)
    (hmr : 1 ≤ mr)
    (hjit : ∀ n, (0.8 : ℚ) ≤ (env n).jitter ∧ (env n).jitter ≤ (1.5 : ℚ)) :
    (XtreamClient.call cs env cl).attempts ≤ mr.toNat ∧
    (∀ i q, (XtreamClient.call cs env cl).sleeps.get? i = some q →
        q = ((max 1 bo : Int) : ℚ) * (i + 1) + (env (i + 2)).jitter ∧
        ((max 1 bo : Int) : ℚ) * (i + 1) + 0.8 ≤ q ∧
        q ≤ ((max 1 bo : Int) : ℚ) * (i + 1) + 1.5) ∧
    (∀ (k : Nat) (p : α) (viaCs : Bool) (fu : String), k < mr.toNat →
        (∀ j, j < k → ∃ m, attemptStep cs (env (1 + j)) = .retry m) →
        attemptStep cs (env (1 + k)) = .done p viaCs fu →
        (XtreamClient.call cs env cl).result = .ok p ∧
        (XtreamClient.call cs env cl).attempts = k + 1) ∧
    (∀ m, (∀ j, j < mr.toNat → ∃ mm, attemptStep cs (env (1 + j)) = .retry mm) →
        attemptStep cs (env (1 + (mr.toNat - 1))) = .retry m →
        (XtreamClient.call cs env cl).result = .error (some m)) := by
  have hfields := XtreamClient.init_ok hinit
  have hmax : cl.max_retries = mr := by
    rw [hfields]
    simp only
    omega
  have hbo : cl.backoff_seconds = max 1 bo := by rw [hfields]
  have hbopos : 0 < cl.backoff_seconds := by rw [hbo]; omega
  have hcalleq : XtreamClient.call cs env cl =
      callAux cs env cl (pyRstripSlash cl.base_url)
        (pyRstripSlash cl.base_url ++ "/player_api.php")
        (if pyStartsWith (pyRstripSlash cl.base_url) "http://" = true
         then pyReplaceHttp (pyRstripSlash cl.base_url) else pyRstripSlash cl.base_url)
        none 1 cl.max_retries.toNat := by
    simp only [XtreamClient.call]
  refine ⟨?_, ?_, ?_, ?_⟩
  · rw [hcalleq, ← hmax]
    exact callAux_attempts_le cs env cl _ _ _ cl.max_retries.toNat 1 none
  · intro i q hq
    rw [call_sleeps_spec, List.get?_map] at hq
    rcases hri : (List.range ((XtreamClient.call cs env cl).attempts - 1)).get? i with _ | j
    · rw [hri] at hq
      exact absurd hq (by simp)
    · rw [hri] at hq
      obtain ⟨hilt, hget⟩ := List.get?_eq_some.mp hri
      rw [List.get_range] at hget
      subst hget
      have hqv : q = sleepDelay env cl.backoff_seconds (i + 2) := by
        simpa using hq.symm
      have hdv : sleepDelay env cl.backoff_seconds (i + 2)
          = (env (i + 2)).jitter + ((max 1 bo : Int) : ℚ) * (i + 1) := by
        unfold sleepDelay
        rw [if_pos hbopos, hbo]
        norm_num
      rw [hqv, hdv]
      refine ⟨by ring, ?_, ?_⟩
      · have := (hjit (i + 2)).1
        linarith
      · have := (hjit (i + 2)).2
        linarith
  · intro k p viaCs fu hk hprev hdone
    have hmain := callAux_done_spec cs env cl (pyRstripSlash cl.base_url)
      (pyRstripSlash cl.base_url ++ "/player_api.php")
      (if pyStartsWith (pyRstripSlash cl.base_url) "http://" = true
       then pyReplaceHttp (pyRstripSlash cl.base_url) else pyRstripSlash cl.base_url)
      k cl.max_retries.toNat 1 none (by omega) hprev p viaCs fu hdone
    simp only at hmain
    rw [hcalleq]
    exact ⟨hmain.1, hmain.2.1⟩
  · intro m hall hlast
    have hmain := callAux_exhaust_spec cs env cl (pyRstripSlash cl.base_url)
      (pyRstripSlash cl.base_url ++ "/player_api.php")
      (if pyStartsWith (pyRstripSlash cl.base_url) "http://" = true
       then pyReplaceHttp (pyRstripSlash cl.base_url) else pyRstripSlash cl.base_url)
      cl.max_retries.toNat 1 none (by omega)
      (by rw [hmax]; exact hall) m (by rw [hmax]; exact hlast)
    simp only at hmain
    rw [hcalleq]
    exact hmain.1

/-- C10: the constructor raises whenever `base_url`, `username` or `password`
is empty; it clamps `max_retries`, `backoff_seconds` and `max_parallel` to at
least 1; consequently every call performs at least one request attempt, even
with `retry.maxAttempts` zero or negative. -/
theorem spec_C10_init_clamps (b u pw : String) (tmo th mr bo mp : Int) :
    ((b = "" ∨ u = "" ∨ pw = "") →
      XtreamClient.init b u pw tmo th mr bo mp =
        .error "Credenciais da API Xtream incompletas") ∧
    (∀ cl, XtreamClient.init b u pw tmo th mr bo mp = .ok cl →
      1 ≤ cl.max_retries ∧ 1 ≤ cl.backoff_seconds ∧ 1 ≤ cl.max_parallel ∧
      ∀ (α : Type) (cs : Bool) (env : Nat → AttemptEnv α),
        1 ≤ (XtreamClient.call cs env cl).attempts) := by
  constructor
  · intro hempty
    unfold XtreamClient.init
    rw [if_pos]
    rcases hempty with h | h | h <;> simp [h]
  · intro cl hok
    have hfields := XtreamClient.init_ok hok
    have hmr : 1 ≤ cl.max_retries := by rw [hfields]; simp only; omega
    refine ⟨hmr, by rw [hfields]; simp only; omega, by rw [hfields]; simp only; omega, ?_⟩
    intro α cs env
    have hpos : 0 < cl.max_retries.toNat := by omega
    have := callAux_attempts_pos cs env cl (pyRstripSlash cl.base_url)
      (pyRstripSlash cl.base_url ++ "/player_api.php")
      (if pyStartsWith (pyRstripSlash cl.base_url) "http://" = true
       then pyReplaceHttp (pyRstripSlash cl.base_url) else pyRstripSlash cl.base_url)
      cl.max_retries.toNat 1 none hpos
    simpa only [XtreamClient.call] using this

theorem spec_C1_https_failover_witness :
    pyStartsWith (pyRstripSlash exClientHttp.base_url) "http://" = true ∧
    (XtreamClient.call true exEnvC1 exClientHttp).result = .ok 7 ∧
    (XtreamClient.call true exEnvC1 exClientHttp).base_url = "https://host" ∧
    pyStartsWith (XtreamClient.call true exEnvC1 exClientHttp).base_url "https://" = true ∧
    "https://host/player_api.php" ∈ (XtreamClient.call true exEnvC1 exClientHttp).urls ∧
    (XtreamClient.call true exEnvC1
        (XtreamClient.afterCall exClientHttp
          (XtreamClient.call true exEnvC1 exClientHttp))).urls.head?
      = some "https://host/player_api.php" := by
  have h := spec_C1_https_failover exEnvC1 exEnvC1 exClientHttp 7 1 exBlockedResp exCsResp
    (by decide) (by decide) (by decide)
    (by intro j h1 h2; omega) rfl (by decide) rfl (by decide) rfl
  have e1 : pyReplaceHttp (pyRstripSlash exClientHttp.base_url) = "https://host" := by decide
  have e2 : "https://host" ++ "/player_api.php" = "https://host/player_api.php" := by decide
  refine ⟨by decide, h.1, ?_, h.2.2.1, ?_, ?_⟩
  · rw [h.2.1, e1]
  · have hm := h.2.2.2.1
    rwa [e1, e2] at hm
  · have hh := h.2.2.2.2
    rw [h.2.1, e1] at hh
    rw [hh]
    rw [show pyRstripSlash "https://host" = "https://host" by decide, e2]

theorem spec_C7_retry_policy_witness :
    (1 : Int) ≤ 2 ∧
    (XtreamClient.call false c7FailEnv c7Client).attempts ≤ (2 : Int).toNat ∧
    (XtreamClient.call false c7FailEnv c7Client).result = .error (some "connection error") := by
  have h := spec_C7_retry_policy false c7FailEnv "http://host" "u" "p" 30 0 2 5 1 c7Client
    (by decide) (by norm_num)
    (by intro n; exact ⟨by norm_num [c7FailEnv], by norm_num [c7FailEnv]⟩)
  refine ⟨by norm_num, h.1, ?_⟩
  exact h.2.2.2 "connection error" (by intro j hj; exact ⟨"connection error", rfl⟩) rfl

/-- C7 counterexample: with `backoffSeconds = 5` and a drawn jitter of 1, the
sleep before the first retry is 6, not exactly `backoffSeconds × 1 = 5`. -/
theorem spec_C7_counterexample :
    (XtreamClient.call false c7FailEnv c7Client).sleeps = [6] ∧
    (XtreamClient.call false c7FailEnv c7Client).sleeps ≠ [5] := by
  have hs : (XtreamClient.call false c7FailEnv c7Client).sleeps = [6] := by
    simp only [XtreamClient.call, callAux, attemptStep, stepUrls, c7FailEnv, c7Client]
    norm_num
  exact ⟨hs, by rw [hs]; norm_num⟩

theorem spec_C10_init_clamps_witness :
    ("" = "" ∨ "u" = "" ∨ "p" = "") ∧
    XtreamClient.init "" "u" "p" 30 0 0 0 0 =
      .error "Credenciais da API Xtream incompletas" ∧
    XtreamClient.init "http://host" "u" "p" 30 0 0 0 0 = .ok c10Client ∧
    1 ≤ c10Client.max_retries ∧ 1 ≤ c10Client.backoff_seconds ∧
    1 ≤ c10Client.max_parallel ∧
    1 ≤ (XtreamClient.call false c7FailEnv c10Client).attempts := by
  have hinit : XtreamClient.init "http://host" "u" "p" 30 0 0 0 0 = .ok c10Client := by decide
  have h := (spec_C10_init_clamps "http://host" "u" "p" 30 0 0 0 0).2 c10Client hinit
  refine ⟨Or.inl rfl,
    (spec_C10_init_clamps "" "u" "p" 30 0 0 0 0).1 (Or.inl rfl),
    hinit, h.1, h.2.1, h.2.2.1, h.2.2.2 Nat false c7FailEnv⟩

theorem mem_serializeCategoriesAux (x : Int) :
    ∀ (l seen : List Int), x ∈ serializeCategoriesAux seen l ↔ x ∈ l ∧ x ∉ seen := by
  intro l
  induction l with
  | nil => intro seen; simp [serializeCategoriesAux]
  | cons c rest ih =>
    intro seen
    by_cases hc : c ∈ seen
    · rw [serializeCategoriesAux, if_pos hc, ih]
      constructor
      · rintro ⟨hm, hn⟩
        exact ⟨List.mem_cons_of_mem _ hm, hn⟩
      · rintro ⟨hm, hn⟩
        rcases List.mem_cons.mp hm with rfl | hm
        · exact absurd hc hn
        · exact ⟨hm, hn⟩
    · rw [serializeCategoriesAux, if_neg hc]
      constructor
      · intro hm
        rcases List.mem_cons.mp hm with rfl | hm
        · exact ⟨List.mem_cons_self _ _, hc⟩
        · have := (ih (c :: seen)).mp hm
          refine ⟨List.mem_cons_of_mem _ this.1, fun hx => this.2 (List.mem_cons_of_mem _ hx)⟩
      · rintro ⟨hm, hn⟩
        rcases List.mem_cons.mp hm with rfl | hm
        · exact List.mem_cons_self _ _
        · by_cases hxc : x = c
          · subst hxc; exact List.mem_cons_self _ _
          · exact List.mem_cons_of_mem _ ((ih (c :: seen)).mpr
              ⟨hm, fun hx => (List.mem_cons.mp hx).elim hxc hn⟩)

theorem mem_serializeCategories (x : Int) (l : List Int) :
    x ∈ serializeCategories l ↔ x ∈ l := by
  rw [serializeCategories, mem_serializeCategoriesAux]
  simp

/-- C4: for every existing record matched by URL, the category-id list
written by the update is a superset of the list read from the record: the
importer appends the mapped category id when absent and never removes an
existing id, so the record's category-id set never shrinks. -/
theorem spec_C4_category_monotonicity (existing : List Int) (xui : Option Int) :
    (∀ x, x ∈ existing → x ∈ mergedCategoryIds existing xui) ∧
    (∀ x, x ∈ existing → x ∈ serializeCategories (mergedCategoryIds existing xui)) ∧
    (∀ c, xui = some c → c ∈ serializeCategories (mergedCategoryIds existing xui)) := by
  refine ⟨?_, ?_, ?_⟩
  · intro x hx
    rcases xui with _ | cid
    · exact hx
    · simp only [mergedCategoryIds]
      split
      · exact hx
      · exact List.mem_append_left _ hx
  · intro x hx
    rw [mem_serializeCategories]
    rcases xui with _ | cid
    · exact hx
    · simp only [mergedCategoryIds]
      split
      · exact hx
      · exact List.mem_append_left _ hx
  · rintro c rfl
    rw [mem_serializeCategories]
    simp only [mergedCategoryIds]
    split
    · assumption
    · exact List.mem_append_right _ (List.mem_singleton_self _)

theorem spec_C4_category_monotonicity_witness :
    (3 : Int) ∈ [3, 4] ∧
    (3 : Int) ∈ serializeCategories (mergedCategoryIds [3, 4] (some 15)) ∧
    (4 : Int) ∈ serializeCategories (mergedCategoryIds [3, 4] (some 15)) ∧
    (15 : Int) ∈ serializeCategories (mergedCategoryIds [3, 4] (some 15)) := by
  have h := spec_C4_category_monotonicity [3, 4] (some 15)
  exact ⟨by decide, h.2.1 3 (by decide), h.2.1 4 (by decide), h.2.2 15 rfl⟩

/-- C5: `_should_ignore` evaluates the rules in the fixed order category-id
membership, then case-insensitive category-name membership, then
case-insensitive title-prefix match; the first matching rule determines the
reported reason.  In particular an item matching both a category-id rule and
a title-prefix rule is reported with the `categoryId` reason. -/
theorem spec_C5_ignore_rule_order (rules : IgnoreRules) (title : String)
    (category_id category_name : Option String) :
    ((pyStrip (category_id.getD "") ≠ "" ∧
        pyStrip (category_id.getD "") ∈ rules.category_ids) →
      shouldIgnore rules title category_id category_name =
        some ("categoryId", pyStrip (category_id.getD ""))) ∧
    (¬ (pyStrip (category_id.getD "") ≠ "" ∧
        pyStrip (category_id.getD "") ∈ rules.category_ids) →
      pyStrip (category_name.getD "") ≠ "" →
      ∀ v, lookupAssoc rules.category_names (pyLower (pyStrip (category_name.getD ""))) =
          some v →
        shouldIgnore rules title category_id category_name = some ("categoryName", v)) ∧
    (¬ (pyStrip (category_id.getD "") ≠ "" ∧
        pyStrip (category_id.getD "") ∈ rules.category_ids) →
      (pyStrip (category_name.getD "") = "" ∨
        lookupAssoc rules.category_names (pyLower (pyStrip (category_name.getD ""))) = none) →
      pyStrip title ≠ "" →
      ∀ pr, rules.prefixes.find?
          (fun q => pyStartsWith (pyLower (pyStrip title)) q.2) = some pr →
        shouldIgnore rules title category_id category_name = some ("prefix", pr.1)) ∧
    ((pyStrip (category_id.getD "") ≠ "" ∧
        pyStrip (category_id.getD "") ∈ rules.category_ids) →
      (∃ pr ∈ rules.prefixes, pyStartsWith (pyLower (pyStrip title)) pr.2 = true) →
      (shouldIgnore rules title category_id category_name).map Prod.fst =
        some "categoryId") := by
  refine ⟨?_, ?_, ?_, ?_⟩
  · intro hid
    unfold shouldIgnore
    rw [if_pos hid]
  · intro hnid hname v hv
    unfold shouldIgnore
    rw [if_neg hnid]
    simp only [if_pos hname, hv]
  · intro hnid hnoname htitle pr hpr
    unfold shouldIgnore
    rw [if_neg hnid]
    rcases hnoname with h | h
    · simp only [h]
      simp only [if_neg (by simp : ¬ ("" : String) ≠ "")]
      rw [if_neg (by simpa using htitle), hpr]
    · by_cases hne : pyStrip (category_name.getD "") ≠ ""
      · simp only [if_pos hne, h]
        rw [if_neg (by simpa using htitle), hpr]
      · simp only [if_neg hne]
        rw [if_neg (by simpa using htitle), hpr]
  · intro hid _
    unfold shouldIgnore
    rw [if_pos hid]
    rfl

/-- Concrete run of the ignore rules: category id 5 is ignored by id even
though the title also matches the prefix rule `Matrix`. -/
theorem spec_C5_ignore_rule_order_witness :
    (pyStrip ((some "5" : Option String).getD "") ≠ "" ∧
      pyStrip ((some "5" : Option String).getD "") ∈
        (parseIgnoreEntry [some "5"] [some "Matrix"]).category_ids) ∧
    pyStartsWith (pyLower (pyStrip "Matrix Reloaded")) "matrix" = true ∧
    shouldIgnore (parseIgnoreEntry [some "5"] [some "Matrix"]) "Matrix Reloaded"
        (some "5") (some "Ação") = some ("categoryId", "5") := by
  refine ⟨⟨by decide, by decide⟩, by decide, ?_⟩
  have h := (spec_C5_ignore_rule_order (parseIgnoreEntry [some "5"] [some "Matrix"])
    "Matrix Reloaded" (some "5") (some "Ação")).1 ⟨by decide, by decide⟩
  rw [h]
  decide

/-- C6: with a non-empty tag, when no `(title, tag)` row exists but a row
with the title and an empty/NULL tag does, `fetch_series` claims that row:
the run ends with the pre-existing row carrying the supplied tag, the
importer reuses its id, and no second series row is created. -/
theorem spec_C6_series_tag_adoption (table : List SeriesRow) (title s : String)
    (freshId : Nat) (r0 : SeriesRow)
    (hs : s ≠ "")
    (hnone : ∀ r ∈ table, ¬ (r.title = title ∧ r.source_tag = some s))
    (hfb : table.find? (rowMatchesFallback title) = some r0) :
    (resolveSeriesId table title (some s) freshId).1 = r0.id ∧
    (resolveSeriesId table title (some s) freshId).2.1 = false ∧
    (resolveSeriesId table title (some s) freshId).2.2.length = table.length ∧
    (⟨r0.id, r0.title, some s⟩ : SeriesRow) ∈ (resolveSeriesId table title (some s) freshId).2.2 ∧
    r0.title = title := by
  have hprim : table.find? (rowMatchesPrimary title (some s)) = none := by
    rw [List.find?_eq_none]
    intro r hr
    have := hnone r hr
    simp only [rowMatchesPrimary, Bool.and_eq_true, beq_iff_eq, decide_eq_true_eq]
    rintro ⟨h1, h2⟩
    exact this ⟨h1, h2⟩
  have hr0mem : r0 ∈ table := List.mem_of_find?_eq_some hfb
  have hr0match : rowMatchesFallback title r0 = true := List.find?_some hfb
  have hr0title : r0.title = title := by
    have := hr0match
    simp only [rowMatchesFallback, Bool.and_eq_true, decide_eq_true_eq] at this
    exact this.1
  have htruthy : tagTruthy (some s) = true := by
    simp [tagTruthy, hs]
  have hfetch : fetch_series table title (some s) =
      (some { r0 with source_tag := some s },
       table.map (fun x => if x.id = r0.id then { x with source_tag := some s } else x)) := by
    unfold fetch_series
    rw [hprim, if_pos htruthy, hfb]
  have hres : resolveSeriesId table title (some s) freshId =
      (r0.id, false,
       table.map (fun x => if x.id = r0.id then { x with source_tag := some s } else x)) := by
    unfold resolveSeriesId
    rw [hfetch]
  rw [hres]
  refine ⟨rfl, rfl, by simp, ?_, hr0title⟩
  have himg := List.mem_map_of_mem
    (fun x => if x.id = r0.id then { x with source_tag := some s } else x) hr0mem
  simpa using himg

/-- Concrete adoption run: the pre-existing row `(1, "Show", "")` is claimed
by tag `cdn1.example:80`; no second row appears. -/
theorem spec_C6_series_tag_adoption_witness :
    ("cdn1.example:80" : String) ≠ "" ∧
    ([⟨1, "Show", some ""⟩] : List SeriesRow).find? (rowMatchesFallback "Show") =
      some ⟨1, "Show", some ""⟩ ∧
    (resolveSeriesId [⟨1, "Show", some ""⟩] "Show" (some "cdn1.example:80") 99).1 = 1 ∧
    (resolveSeriesId [⟨1, "Show", some ""⟩] "Show" (some "cdn1.example:80") 99).2.1 = false ∧
    (resolveSeriesId [⟨1, "Show", some ""⟩] "Show" (some "cdn1.example:80") 99).2.2.length = 1 ∧
    (⟨1, "Show", some "cdn1.example:80"⟩ : SeriesRow) ∈
      (resolveSeriesId [⟨1, "Show", some ""⟩] "Show" (some "cdn1.example:80") 99).2.2 := by
  have h := spec_C6_series_tag_adoption [⟨1, "Show", some ""⟩] "Show" "cdn1.example:80" 99
    ⟨1, "Show", some ""⟩ (by decide) (by decide) (by decide)
  exact ⟨by decide, by decide, h.1, h.2.1, h.2.2.1, h.2.2.2.1⟩

theorem goodScan_init : GoodScan initScan := by
  refine ⟨?_, ?_, ?_⟩ <;> simp [initScan]

theorem goodLists_extend {seen cands : List String} (t : String)
    (h : GoodLists seen cands) (h1 : pyStrip t = t) (h2 : t ≠ "") (h3 : t ∉ seen) :
    GoodLists (t :: seen) (cands ++ [t]) := by
  have hnc : t ∉ cands := fun hc => h3 ((h.2.2 t).mpr hc)
  refine ⟨?_, ?_, ?_⟩
  · intro x hx
    rcases List.mem_append.mp hx with hx | hx
    · exact h.1 x hx
    · rcases List.mem_singleton.mp hx with rfl
      exact ⟨h1, h2⟩
  · refine List.Nodup.append h.2.1 (List.nodup_singleton _) ?_
    intro a ha hb
    rcases List.mem_singleton.mp hb with rfl
    exact hnc ha
  · intro x
    simp only [List.mem_cons, List.mem_append, List.mem_singleton, h.2.2 x]
    tauto

theorem goodScan_step (st : ScanState) (item : PyItem) (h : GoodScan st) :
    GoodScan (scanStep st item) := by
  rcases item with s | _
  · simp only [scanStep]
    by_cases hne : pyStrip s = ""
    · rw [if_pos hne]
      by_cases hts : pyStrip s ≠ s
      · rw [if_pos hts]; exact h
      · rw [if_neg hts]; exact h
    · rw [if_neg hne]
      by_cases hts : pyStrip s ≠ s
      · rw [if_pos hts]
        by_cases hseen : pyStrip s ∈ st.seen
        · rw [if_pos hseen]; exact h
        · rw [if_neg hseen]; exact goodLists_extend (pyStrip s) h (pyStrip_idem s) hne hseen
      · rw [if_neg hts]
        by_cases hseen : pyStrip s ∈ st.seen
        · rw [if_pos hseen]; exact h
        · rw [if_neg hseen]; exact goodLists_extend (pyStrip s) h (pyStrip_idem s) hne hseen
  · exact h

theorem goodScan_items (items : List PyItem) :
    ∀ st : ScanState, GoodScan st → GoodScan (scanItems items st) := by
  induction items with
  | nil => intro st h; exact h
  | cons item rest ih =>
    intro st h
    show GoodScan (List.foldl scanStep st (item :: rest))
    rw [List.foldl_cons]
    exact ih _ (goodScan_step st item h)

theorem nssAux_id : ∀ (l seen : List String),
    (∀ x ∈ l, pyStrip x = x ∧ x ≠ "") → l.Nodup → (∀ x ∈ l, x ∉ seen) →
    nssAux seen (l.map some) = l := by
  intro l
  induction l with
  | nil => intro seen _ _ _; rfl
  | cons c rest ih =>
    intro seen hprops hnodup hseen
    have hc := hprops c (List.mem_cons_self _ _)
    simp only [List.map_cons, nssAux]
    rw [if_neg hc.2, hc.1, if_neg (by push_neg; exact ⟨hc.2, hseen c (List.mem_cons_self _ _)⟩)]
    congr 1
    refine ih (c :: seen) (fun x hx => hprops x (List.mem_cons_of_mem _ hx))
      (List.Nodup.of_cons hnodup) ?_
    intro x hx
    rw [List.mem_cons]
    push_neg
    constructor
    · intro hxc
      subst hxc
      exact (List.nodup_cons.mp hnodup).1 hx
    · exact hseen x (List.mem_cons_of_mem _ hx)

theorem scanStep_clean (st : ScanState) (c : String)
    (h1 : pyStrip c = c) (h2 : c ≠ "") (h3 : c ∉ st.seen) :
    scanStep st (.str c) =
      { st with seen := c :: st.seen, candidates := st.candidates ++ [c] } := by
  simp only [scanStep, h1]
  rw [if_neg h2, if_neg (show ¬ (c ≠ c) from fun h => h rfl), if_neg h3]

theorem scanItems_clean : ∀ (l : List String) (st : ScanState),
    (∀ x ∈ l, pyStrip x = x ∧ x ≠ "") → l.Nodup → (∀ x ∈ l, x ∉ st.seen) →
    scanItems (l.map PyItem.str) st =
      { st with seen := l.reverse ++ st.seen, candidates := st.candidates ++ l } := by
  intro l
  induction l with
  | nil => intro st _ _ _; simp [scanItems]
  | cons c rest ih =>
    intro st hprops hnodup hseen
    have hc := hprops c (List.mem_cons_self _ _)
    show scanItems (PyItem.str c :: rest.map PyItem.str) st = _
    have hstep := scanStep_clean st c hc.1 hc.2 (hseen c (List.mem_cons_self _ _))
    have hfold : scanItems (PyItem.str c :: rest.map PyItem.str) st =
        scanItems (rest.map PyItem.str) (scanStep st (.str c)) := by
      simp [scanItems]
    rw [hfold, hstep, ih _ (fun x hx => hprops x (List.mem_cons_of_mem _ hx))
      (List.Nodup.of_cons hnodup) ?_]
    · simp
    · intro x hx
      simp only [List.mem_cons]
      push_neg
      constructor
      · intro hxc
        subst hxc
        exact (List.nodup_cons.mp hnodup).1 hx
      · exact hseen x (List.mem_cons_of_mem _ hx)

theorem scanStep_candidates (st : ScanState) (s : String) :
    (scanStep st (.str s)).candidates = st.candidates ∨
    (scanStep st (.str s)).candidates = st.candidates ++ [pyStrip s] := by
  simp only [scanStep]
  by_cases hne : pyStrip s = ""
  · rw [if_pos hne]
    left
    split <;> rfl
  · rw [if_neg hne]
    by_cases hts : pyStrip s ≠ s
    · rw [if_pos hts]
      by_cases hseen : pyStrip s ∈ st.seen
      · rw [if_pos hseen]; left; rfl
      · rw [if_neg hseen]; right; rfl
    · rw [if_neg hts]
      by_cases hseen : pyStrip s ∈ st.seen
      · rw [if_pos hseen]; left; rfl
      · rw [if_neg hseen]; right; rfl

theorem scanStep_candidates_nonstr (st : ScanState) :
    (scanStep st .nonstr).candidates = st.candidates := rfl

theorem scanItems_candidates_sublist : ∀ (items : List PyItem) (st : ScanState),
    ∃ l, (scanItems items st).candidates = st.candidates ++ l ∧
      List.Sublist l (items.filterMap itemStrip) := by
  intro items
  induction items with
  | nil => intro st; exact ⟨[], by simp [scanItems], by simp⟩
  | cons item rest ih =>
    intro st
    have hfold : scanItems (item :: rest) st = scanItems rest (scanStep st item) := by
      simp [scanItems]
    obtain ⟨l, hl, hsub⟩ := ih (scanStep st item)
    rcases item with s | _
    · have hfm : (PyItem.str s :: rest).filterMap itemStrip =
          pyStrip s :: rest.filterMap itemStrip := by
        simp [itemStrip]
      rcases scanStep_candidates st s with hcand | hcand
      · refine ⟨l, ?_, ?_⟩
        · rw [hfold, hl, hcand]
        · rw [hfm]
          exact hsub.cons _
      · refine ⟨pyStrip s :: l, ?_, ?_⟩
        · rw [hfold, hl, hcand]
          simp
        · rw [hfm]
          exact hsub.cons₂ _
    · have hfm : (PyItem.nonstr :: rest).filterMap itemStrip =
          rest.filterMap itemStrip := by
        simp [itemStrip]
      exact ⟨l, by rw [hfold, hl, scanStep_candidates_nonstr], by rw [hfm]; exact hsub⟩

theorem finishScan_good (st : ScanState) (h : GoodScan st) (c0 : Bool) :
    finishScan st c0 = (st.candidates, st.candidates.head?,
      c0 || st.nonString || st.trimmedDetected || st.emptyDetected || st.dupDetected) := by
  have hn : normalize_stream_source (st.candidates.map some) = st.candidates :=
    nssAux_id st.candidates [] h.1 h.2.1 (by simp)
  simp only [finishScan, hn]
  simp

theorem nsv_second_run (n : List String)
    (h1 : ∀ x ∈ n, pyStrip x = x ∧ x ≠ "") (h2 : n.Nodup) :
    normalizeStreamSourceValue (.jsonArr (n.map PyItem.str)) = (n, n.head?, false) := by
  show finishScan (scanItems (n.map PyItem.str) initScan) false = (n, n.head?, false)
  rw [scanItems_clean n initScan h1 h2 (by simp [initScan])]
  rw [finishScan_good _ ?_ false]
  · simp [initScan]
  · refine ⟨?_, ?_, ?_⟩
    · simpa [initScan] using h1
    · simpa [initScan] using h2
    · intro x
      simp [initScan]

theorem nsv_parts_key (items : List PyItem) (c0 : Bool) :
    (∀ x ∈ (finishScan (scanItems items initScan) c0).1, pyStrip x = x ∧ x ≠ "") ∧
    (finishScan (scanItems items initScan) c0).1.Nodup ∧
    (finishScan (scanItems items initScan) c0).2.1 =
      (finishScan (scanItems items initScan) c0).1.head? ∧
    List.Sublist (finishScan (scanItems items initScan) c0).1
      (items.filterMap itemStrip) := by
  have hg := goodScan_items items initScan goodScan_init
  have hf := finishScan_good _ hg c0
  obtain ⟨l, hl, hsub⟩ := scanItems_candidates_sublist items initScan
  have hcand : (scanItems items initScan).candidates = l := by
    simpa [initScan] using hl
  rw [hf]
  refine ⟨?_, ?_, rfl, ?_⟩
  · exact hg.1
  · exact hg.2.1
  · rw [hcand]
    exact hsub

/-- C9: `_normalize_stream_source_value` is idempotent — applied to the JSON
encoding (a JSON array of strings) of its own normalized output it returns
the same list with `changed = false`, so the pre-pass rewrites nothing on a
re-run; and the normalized list preserves first-seen order of the trimmed
URLs (it is a sublist of them) with no duplicates and no empty entries. -/
theorem spec_C9_normalize_idempotent (v : StoredVal) :
    normalizeStreamSourceValue (.jsonArr ((normalizeStreamSourceValue v).1.map PyItem.str)) =
      ((normalizeStreamSourceValue v).1, (normalizeStreamSourceValue v).1.head?, false) ∧
    (normalizeStreamSourceValue v).2.1 = (normalizeStreamSourceValue v).1.head? ∧
    (normalizeStreamSourceValue v).1.Nodup ∧
    (∀ x ∈ (normalizeStreamSourceValue v).1, pyStrip x = x ∧ x ≠ "") ∧
    List.Sublist (normalizeStreamSourceValue v).1 ((storedItems v).filterMap itemStrip) := by
  have hparts : (∀ x ∈ (normalizeStreamSourceValue v).1, pyStrip x = x ∧ x ≠ "") ∧
      (normalizeStreamSourceValue v).1.Nodup ∧
      (normalizeStreamSourceValue v).2.1 = (normalizeStreamSourceValue v).1.head? ∧
      List.Sublist (normalizeStreamSourceValue v).1 ((storedItems v).filterMap itemStrip) := by
    rcases v with _ | s | xs | s | _
    · exact ⟨by simp [normalizeStreamSourceValue], by simp [normalizeStreamSourceValue],
        rfl, by simp [normalizeStreamSourceValue, storedItems]⟩
    · by_cases hs : s = ""
      · subst hs
        exact ⟨by simp [normalizeStreamSourceValue], by simp [normalizeStreamSourceValue],
          rfl, by simp [normalizeStreamSourceValue, storedItems]⟩
      · have hkey := nsv_parts_key [.str s] true
        have heq : normalizeStreamSourceValue (.raw s) =
            finishScan (scanItems [.str s] initScan) true := by
          simp [normalizeStreamSourceValue, hs]
        have hitems : storedItems (.raw s) = [.str s] := by
          simp [storedItems, hs]
        rw [heq, hitems]
        exact hkey
    · exact nsv_parts_key xs false
    · exact nsv_parts_key [.str s] true
    · exact nsv_parts_key [] true
  exact ⟨nsv_second_run _ hparts.1 hparts.2.1, hparts.2.2.1, hparts.2.1, hparts.1,
    hparts.2.2.2⟩

theorem spec_C9_normalize_idempotent_witness :
    normalizeStreamSourceValue c9Example = (["a", "b"], some "a", true) ∧
    normalizeStreamSourceValue (.jsonArr [PyItem.str "a", PyItem.str "b"]) =
      (["a", "b"], some "a", false) := by
  have h := (spec_C9_normalize_idempotent c9Example).1
  rw [show (normalizeStreamSourceValue c9Example).1 = ["a", "b"] by decide] at h
  exact ⟨by decide, by simpa using h⟩

theorem run_import_shape (tipo tenant_id : String) (user_id : Int) (existing : Option Job)
    (cfg : WorkerConfig) (newId : Nat) (now fin : Nat)
    (htipo : tipo = "filmes" ∨ tipo = "series") :
    ∃ msg, run_import tipo tenant_id user_id existing cfg newId now fin =
      (some (failJob (ensure_job tipo tenant_id user_id existing newId now) now fin msg),
       [ensure_job tipo tenant_id user_id existing newId now,
        failJob (ensure_job tipo tenant_id user_id existing newId now) now fin msg]) := by
  have hmem : tipo ∈ (["filmes", "series"] : List String) := by
    rcases htipo with rfl | rfl <;> simp
  simp only [run_import]
  rw [if_neg (show ¬ tipo ∉ (["filmes", "series"] : List String) from by simp [hmem])]
  by_cases h1 : cfg.xui_db_uri = ""
  · exact ⟨_, by rw [if_pos h1]⟩
  · rw [if_neg h1]
    by_cases h2 : cfg.xtream_base_url = ""
    · exact ⟨_, by rw [if_pos h2]⟩
    · rw [if_neg h2]
      by_cases h3 : cfg.xtream_username = "" ∨ cfg.xtream_password = ""
      · exact ⟨_, by rw [if_pos h3]⟩
      · exact ⟨_, by rw [if_neg h3]⟩

/-- C2 (amended): within a single run the engine sets a terminal status
exactly once, as the last snapshot, and mutates nothing afterwards; but
re-running an import with the job id of a job already in a terminal state
does move it back to `running`: `_ensure_job` re-claims it unconditionally,
resetting status, counters, progress, error and timestamps. -/
theorem spec_C2_terminal_states (tipo tenant_id : String) (user_id : Int)
    (existing : Option Job) (cfg : WorkerConfig) (newId : Nat) (now fin : Nat)
    (htipo : tipo = "filmes" ∨ tipo = "series") :
    (∃ claimed final,
      (run_import tipo tenant_id user_id existing cfg newId now fin).2 = [claimed, final] ∧
      claimed.status = "running" ∧
      (final.status = "finished" ∨ final.status = "failed") ∧
      ∀ j ∈ (run_import tipo tenant_id user_id existing cfg newId now fin).2.dropLast,
        j.status ≠ "finished" ∧ j.status ≠ "failed") ∧
    (∀ tj : Job, tj.status = "finished" ∨ tj.status = "failed" →
      (ensure_job tipo tenant_id user_id (some tj) newId now).status = "running") := by
  obtain ⟨msg, hshape⟩ :=
    run_import_shape tipo tenant_id user_id existing cfg newId now fin htipo
  constructor
  · refine ⟨ensure_job tipo tenant_id user_id existing newId now,
      failJob (ensure_job tipo tenant_id user_id existing newId now) now fin msg,
      by rw [hshape], rfl, Or.inr rfl, ?_⟩
    rw [hshape]
    intro j hj
    simp only [List.dropLast, List.mem_singleton] at hj
    subst hj
    exact ⟨by simp [ensure_job], by simp [ensure_job]⟩
  · intro tj _
    rfl

/-- C2 counterexample: a job already `finished` is moved back to `running`
by re-running the import with its id. -/
theorem spec_C2_counterexample :
    c2FinishedJob.status = "finished" ∧
    (ensure_job "filmes" "t1" 1 (some c2FinishedJob) 99 100).id = c2FinishedJob.id ∧
    (ensure_job "filmes" "t1" 1 (some c2FinishedJob) 99 100).status = "running" ∧
    ((run_import "filmes" "t1" 1 (some c2FinishedJob) c8FullConfig 99 100 160).2.head?.map
      Job.status) = some "running" := by
  decide

theorem spec_C2_terminal_states_witness :
    (("filmes" : String) = "filmes" ∨ ("filmes" : String) = "series") ∧
    (ensure_job "filmes" "t1" 1 (some c2FinishedJob) 99 100).status = "running" ∧
    ((run_import "filmes" "t1" 1 (some c2FinishedJob) c8FullConfig 99 100 160).2.map
      Job.status) = ["running", "failed"] := by
  have h := spec_C2_terminal_states "filmes" "t1" 1 (some c2FinishedJob) c8FullConfig
    99 100 160 (Or.inl rfl)
  exact ⟨Or.inl rfl, h.2 c2FinishedJob (Or.inl (by decide)), by decide⟩

/-- C8: the claim is half right on the code.  A run whose configuration lacks
the Xtream credentials does transition the job directly to `failed` with the
message recorded and all counters 0.  But a fully configured run can never
reach `finished`: importers.py line 1057 calls `get_engine` with two of its
three required positional arguments, so setup raises `TypeError` and the job
is marked `failed` before any item is processed — the per-item
partial-failure path is unreachable through `run_import`. -/
theorem spec_C8_failure_semantics :
    ((run_import "filmes" "t1" 1 none c8NoCredsConfig 5 100 160).1.map
      (fun j => (j.status, j.error, j.inserted, j.updated, j.ignored, j.errors))) =
      some ("failed", some "Credenciais da API Xtream não configuradas", 0, 0, 0, 0) ∧
    ((run_import "filmes" "t1" 1 none c8FullConfig 5 100 160).1.map
      (fun j => (j.status, j.error))) =
      some ("failed",
        some "TypeError: get_engine() missing 1 required positional argument: credentials") ∧
    ¬ ((run_import "filmes" "t1" 1 none c8FullConfig 5 100 160).1.map Job.status =
        some "finished") := by
  decide

/-- C3: the code contradicts the claim for the expected driver.  With an
empty registry and a `mysql+pymysql` URI, `get_engine` creates nothing,
validates nothing, stores nothing and returns Python `None`; with a cached
entry under a different URI it disposes the old engine and returns that
disposed engine.  For any other driver the claimed
dispose-create-validate-store sequence does happen. -/
theorem spec_C3_get_engine_pymysql_bug :
    driverOf "mysql+pymysql://user:pw@host:3306/xui" = "mysql+pymysql" ∧
    get_engine emptyRegistry "tenant1" none "mysql+pymysql://user:pw@host:3306/xui" true =
      (.ok none, emptyRegistry) ∧
    (get_engine staleRegistry "tenant1" none "mysql+pymysql://user:pw@host:3306/xui"
        true).1 =
      .ok (some ⟨1, "mysql+pymysql://old:pw@old-host/db", true⟩) ∧
    get_engine emptyRegistry "tenant1" none "mysql://user:pw@host:3306/xui" true =
      (.ok (some ⟨1, "mysql://user:pw@host:3306/xui", false⟩),
       ⟨[("tenant1:default", ⟨1, "mysql://user:pw@host:3306/xui", false⟩)],
        [("tenant1:default", "mysql://user:pw@host:3306/xui")], 2⟩) := by
  decide
